import Mathlib

/-!
Verification development for the Anki AI-agent Raycast extension.

The development shallowly embeds the card-submission workflow:
* `markdownToAnkiHtml` — the content normalizer of `src/tools/add-card.ts`;
* `addDeckConfiguration` / `removeDeckConfiguration` — the storage layer
  (`storage.ts`), with the persisted blob modelled as the parsed list;
* `invokeAnkiConnect` — the low-level AnkiConnect response handling
  (`ankiConnect.ts`);
* `tool` — the `add-card` tool body, modelled as a pure function from an
  environment (the peer's responses) to a structured result plus the trace
  of peer calls issued.

JavaScript numbers are modelled as rationals: every value the code
compares (`deckId <= 0`, `c.deckId === input.deckId`) is compared exactly
by the JavaScript semantics on the finite doubles in scope, and rationals
preserve those comparisons exactly.  A runtime value that is not a number
at all (the `typeof input.deckId !== "number"` guard) is modelled as
`none`.
-/

/-- JavaScript-style whitespace test for the ASCII whitespace characters
relevant here (the source uses `String.prototype.trim`). -/
def wsChar (c : Char) : Bool :=
  c == ' ' || c == '\t' || c == '\n' || c == '\r'

/-- Drop leading whitespace characters. -/
def trimLeftChars (l : List Char) : List Char :=
  l.dropWhile wsChar

/-- Drop trailing whitespace characters. -/
def trimRightChars (l : List Char) : List Char :=
  (l.reverse.dropWhile wsChar).reverse

/-- Both-ends trim on character lists. -/
def trimChars (l : List Char) : List Char :=
  trimRightChars (trimLeftChars l)

/-- Model of JavaScript `String.prototype.trim` on the ASCII range. -/
def jsTrim (s : String) : String :=
  ⟨trimChars s.data⟩

/-- Model of JavaScript `split(",")` on character lists. -/
def splitOnComma : List Char → List (List Char)
  | [] => [[]]
  | ',' :: rest => [] :: splitOnComma rest
  | c :: rest =>
    match splitOnComma rest with
    | [] => [[c]]
    | s :: ss => (c :: s) :: ss

/-- The tag list built by `add-card.ts`:
`input.tags ? input.tags.split(",").map((t) => t.trim()) : []`.
The ternary tests truthiness, so an empty string yields the empty list. -/
def jsTags : Option String → List String
  | none => []
  | some s => if s = "" then [] else (splitOnComma s.data).map (fun l => jsTrim ⟨l⟩)

/-- Backtick character (inline-code marker), by code point. -/
def codeTick : Char := Char.ofNat 96

/-- Modelled from the spec: the HTML escaping performed by the missing
third-party renderer (markdown-it's `escapeHtml`, applied to all text
because the tool constructs the renderer with `html: false`, and soft
line breaks become break tags because of `breaks: true`).  Section 4.3 of
the spec: raw structural markup from the input is disabled — only the
normalizer's own conversions may produce structural markup. -/
def escChar (c : Char) : List Char :=
  if c = '&' then ['&', 'a', 'm', 'p', ';']
  else if c = '<' then ['&', 'l', 't', ';']
  else if c = '>' then ['&', 'g', 't', ';']
  else if c = '"' then ['&', 'q', 'u', 'o', 't', ';']
  else if c = '\n' then ['<', 'b', 'r', '>', '\n']
  else [c]

/-- Escape every character of a text run. -/
def escList : List Char → List Char
  | [] => []
  | c :: cs => escChar c ++ escList cs

/-- Split a character list at every occurrence of the strong-emphasis
marker (two asterisks). -/
def splitSS : List Char → List (List Char)
  | [] => [[]]
  | [c] => [[c]]
  | c1 :: c2 :: rest =>
    if c1 = '*' ∧ c2 = '*' then [] :: splitSS rest
    else
      match splitSS (c2 :: rest) with
      | [] => [[c1]]
      | s :: ss => (c1 :: s) :: ss

def strongOpen : List Char := ['<', 's', 't', 'r', 'o', 'n', 'g', '>']

def strongClose : List Char := ['<', '/', 's', 't', 'r', 'o', 'n', 'g', '>']

/-- Render the segments produced by `splitSS`: segments alternate between
outside and inside a pair of strong markers; a final unmatched opening
marker stays literal. -/
def renderSegs : List (List Char) → List Char
  | [] => []
  | [s] => escList s
  | s :: t :: rest =>
    if rest.isEmpty then escList s ++ '*' :: '*' :: escList t
    else escList s ++ strongOpen ++ escList t ++ strongClose ++ renderSegs rest

def pOpen : List Char := ['<', 'p', '>']

def pClose : List Char := ['<', '/', 'p', '>', '\n']

/-- Modelled from the spec: `md.render` of the markdown-it instance
configured in `add-card.ts` (`html: false`, `breaks: true`,
`linkify: false`) is third-party code absent from the repository.  Per
spec section 4.3 the conversion handles emphasis, inline code, line
breaks and lists, disables raw structural markup in the input, and wraps
the result in a single paragraph block.  The model covers single-paragraph
inline content: HTML-structural characters are escaped, strong-emphasis
pairs become strong tags, soft line breaks become break tags, and the
paragraph wrapper is emitted.  Block constructs, nested emphasis and
entity references are outside every claim's scope and are not modelled. -/
def renderChars (l : List Char) : List Char :=
  pOpen ++ renderSegs (splitSS l) ++ pClose

/-- First half of the wrapper-stripping regex
`/^<p>|<\/p>\n?$/g`: remove one leading paragraph-open tag. -/
def dropPOpen : List Char → List Char
  | '<' :: 'p' :: '>' :: rest => rest
  | l => l

/-- Second half of the wrapper-stripping regex, operating on the reversed
list: remove one trailing paragraph-close tag, preferring the variant
followed by a newline (the regex `\n?` is greedy). -/
def dropPCloseRev : List Char → List Char
  | '\n' :: '>' :: 'p' :: '/' :: '<' :: r => r
  | '>' :: 'p' :: '/' :: '<' :: r => r
  | r => r

/-- The `html.replace(/^<p>|<\/p>\n?$/g, "")` step of
`markdownToAnkiHtml`. -/
def stripP (l : List Char) : List Char :=
  (dropPCloseRev (dropPOpen l).reverse).reverse

/-- `markdownToAnkiHtml` from `add-card.ts`: render the markdown, strip
the single wrapping paragraph block, and trim. -/
def markdownToAnkiHtml (s : String) : String :=
  ⟨trimChars (stripP (renderChars s.data))⟩

/-- `DeckConfiguration` from `storage.ts`.  `noteType` is a string union
at runtime, modelled as a string. -/
structure DeckConfiguration where
  deckId : ℚ
  deckName : String
  purpose : String
  noteType : String
  frontTemplate : String
  backTemplate : String
  frontExample : String
  backExample : String
deriving DecidableEq, Repr

/-- `addDeckConfiguration` from `storage.ts`, with the stored blob
modelled as the parsed configuration list: filter out any configuration
with the same deck id, then push the new one. -/
def addDeckConfiguration (configurations : List DeckConfiguration)
    (configuration : DeckConfiguration) : List DeckConfiguration :=
  (configurations.filter fun c => c.deckId != configuration.deckId) ++ [configuration]

/-- `removeDeckConfiguration` from `storage.ts`. -/
def removeDeckConfiguration (configurations : List DeckConfiguration)
    (deckId : ℚ) : List DeckConfiguration :=
  configurations.filter fun c => c.deckId != deckId

/-- `isDeckConfigured` from `storage.ts`. -/
def isDeckConfigured (configurations : List DeckConfiguration) (deckId : ℚ) : Bool :=
  configurations.any fun c => c.deckId == deckId

/-- The stored-set invariant: at most one configuration per deck id. -/
def atMostOnePerDeckId (configurations : List DeckConfiguration) : Prop :=
  (configurations.map (·.deckId)).Nodup

/-- `AnkiConnectResponse<T>` from `ankiConnect.ts`: `null` fields are
modelled as `none`. -/
structure AnkiConnectResponse (T : Type) where
  result : Option T
  error : Option String
deriving DecidableEq, Repr

/-- JavaScript truthiness of the `string | null` field `data.error`:
truthy exactly when non-null and non-empty. -/
def truthyStr : Option String → Bool
  | none => false
  | some s => s != ""

/-- The response handling of `invokeAnkiConnect` in `ankiConnect.ts`:
reject when the transport reports a non-success status, throw the peer's
message when `data.error` is truthy, throw on a null result, otherwise
return the result value. -/
def invokeAnkiConnect {T : Type} (httpOk : Bool) (statusText : String)
    (resp : AnkiConnectResponse T) : Except String T :=
  if !httpOk then Except.error ("AnkiConnect request failed: " ++ statusText)
  else if truthyStr resp.error then Except.error (resp.error.getD "")
  else
    match resp.result with
    | none => Except.error "AnkiConnect returned null result"
    | some v => Except.ok v

/-- One field of a note as returned by `notesInfo`. -/
structure NoteFieldValue where
  value : String
  order : Nat
deriving DecidableEq, Repr

/-- One element of the `notesInfo` response. -/
structure NoteInfo where
  noteId : Int
  modelName : String
  tags : List String
  fields : List (String × NoteFieldValue)
deriving DecidableEq, Repr

/-- The peer requests `add-card.ts` can issue, in issue order.  `addNote`
records the `allowDuplicate: false` option the client always passes;
`updateNoteFields` exists in `ankiConnect.ts` but is recorded here so
that its absence from every trace is expressible. -/
inductive PeerCall where
  | version
  | findNotes (query : String)
  | notesInfo (noteIds : List Int)
  | addNote (deckName : String) (modelName : String)
      (fields : List (String × String)) (tags : List String) (allowDuplicate : Bool)
  | updateNoteFields (noteId : Int) (fields : List (String × String))
deriving DecidableEq, Repr

/-- Whether a peer call mutates the peer's collection. -/
def isWriteCall : PeerCall → Bool
  | PeerCall.addNote _ _ _ _ _ => true
  | PeerCall.updateNoteFields _ _ => true
  | _ => false

/-- The distinct return sites of the `add-card` tool.  Each constructor
records exactly the data interpolated into the message string returned at
that site. -/
inductive ToolResult where
  | invalidDeckId
  | missingFront
  | missingBack
  | notConnected
  | notConfigured
  | unknownDeck (deckId : ℚ)
  | duplicateWarning (count : Nat) (candidates : List NoteInfo)
  | created (noteId : Int) (deckName : String) (noteType : String)
      (fields : List (String × String)) (tags : List String)
  | createFailed (message : String) (noteType : String) (deckName : String)
deriving DecidableEq, Repr

/-- The environment one invocation of the tool runs against: the
connection probe's outcome, the parsed stored configurations, and the
peer's response to each request the tool can issue. -/
structure AnkiEnv where
  versionOk : Bool
  configurations : List DeckConfiguration
  findNotesResult : Except String (List Int)
  notesInfoResult : Except String (List NoteInfo)
  addNoteResult : Except String Int

/-- The `configurations.find((c) => c.deckId === input.deckId)` lookup. -/
def lookupConfiguration (configurations : List DeckConfiguration)
    (deckId : ℚ) : Option DeckConfiguration :=
  configurations.find? fun c => c.deckId == deckId

/-- The tool's input.  `deckId` is `none` when the runtime value is not a
number (the `typeof input.deckId !== "number"` guard). -/
structure Input where
  deckId : Option ℚ
  Front : String
  Back : String
  tags : Option String

/-- The final `addNote` call of the tool (the second `try` block):
issue the create request and report success or failure. -/
def commitNote (env : AnkiEnv) (cfg : DeckConfiguration)
    (fields : List (String × String)) (tags : List String)
    (calls : List PeerCall) : ToolResult × List PeerCall :=
  let calls1 := calls ++ [PeerCall.addNote cfg.deckName cfg.noteType fields tags false]
  match env.addNoteResult with
  | Except.ok noteId => (ToolResult.created noteId cfg.deckName cfg.noteType fields tags, calls1)
  | Except.error msg => (ToolResult.createFailed msg cfg.noteType cfg.deckName, calls1)

/-- The duplicate-check `try` block of the tool followed by the commit:
a failure of either `findNotes` or `notesInfo` is caught and the tool
proceeds to create; a non-empty id list with successful detail lookup
returns the duplicate warning instead. -/
def duplicateCheckThenCommit (env : AnkiEnv) (cfg : DeckConfiguration)
    (input : Input) (calls : List PeerCall) : ToolResult × List PeerCall :=
  let fields := [("Front", markdownToAnkiHtml input.Front), ("Back", markdownToAnkiHtml input.Back)]
  let tags := jsTags input.tags
  let query := "deck:\"" ++ cfg.deckName ++ "\" " ++ input.Front
  let calls1 := calls ++ [PeerCall.findNotes query]
  match env.findNotesResult with
  | Except.error _ => commitNote env cfg fields tags calls1
  | Except.ok duplicateIds =>
    if duplicateIds.isEmpty then commitNote env cfg fields tags calls1
    else
      let calls2 := calls1 ++ [PeerCall.notesInfo duplicateIds]
      match env.notesInfoResult with
      | Except.error _ => commitNote env cfg fields tags calls2
      | Except.ok duplicateInfo =>
        (ToolResult.duplicateWarning duplicateIds.length duplicateInfo, calls2)

/-- The body of the default export of `add-card.ts`.  Raycast invokes it
only after the confirmation prompt resolves positively, so this function
is the post-approval workflow.  The result pairs the returned message
(as the structured return site) with the trace of peer requests issued. -/
def tool (env : AnkiEnv) (input : Input) : ToolResult × List PeerCall :=
  match input.deckId with
  | none => (ToolResult.invalidDeckId, [])
  | some deckId =>
    if deckId ≤ 0 then (ToolResult.invalidDeckId, [])
    else if jsTrim input.Front = "" then (ToolResult.missingFront, [])
    else if jsTrim input.Back = "" then (ToolResult.missingBack, [])
    else if env.versionOk = false then (ToolResult.notConnected, [PeerCall.version])
    else if env.configurations.isEmpty then (ToolResult.notConfigured, [PeerCall.version])
    else
      match lookupConfiguration env.configurations deckId with
      | none => (ToolResult.unknownDeck deckId, [PeerCall.version])
      | some cfg => duplicateCheckThenCommit env cfg input [PeerCall.version]

/-! ### Sample data for witnesses -/

/-- Sample configuration, as in the spec's scenario section. -/
def cfgVocab : DeckConfiguration :=
  ⟨1, "Spanish::Vocab", "Spanish vocabulary", "Basic", "", "", "", ""⟩

/-- Environment: connected, one configured deck, no duplicates, create
succeeds with id 101. -/
def envNoDup : AnkiEnv :=
  ⟨true, [cfgVocab], Except.ok [], Except.ok [], Except.ok 101⟩

/-- The spec scenario's submission. -/
def inputHablar : Input :=
  ⟨some 1, "hablar", "to speak", none⟩

/-! ### Helper lemmas -/

lemma lookupConfiguration_ne_nil {l : List DeckConfiguration} {q : ℚ}
    {cfg : DeckConfiguration} (h : lookupConfiguration l q = some cfg) :
    l.isEmpty = false := by
  cases l with
  | nil => simp [lookupConfiguration] at h
  | cons a as => rfl

/-- Claim C1: for a submission with non-empty trimmed front and back, a
positive deck id matching a stored configuration, an empty duplicate
search result and (implicitly, by Raycast invoking the tool only after
confirmation) approval, the tool terminates with the created outcome
carrying the peer-assigned note id, and the field map passed to the
create call is exactly Front ↦ markdownToAnkiHtml(front),
Back ↦ markdownToAnkiHtml(back). -/
theorem addCard_creates_with_normalized_fields
    (env : AnkiEnv) (input : Input) (q : ℚ) (cfg : DeckConfiguration) (noteId : Int)
    (hq : input.deckId = some q) (hq0 : ¬ q ≤ 0)
    (hf : ¬ jsTrim input.Front = "") (hb : ¬ jsTrim input.Back = "")
    (hv : env.versionOk = true)
    (hcfg : lookupConfiguration env.configurations q = some cfg)
    (hdup : env.findNotesResult = Except.ok [])
    (hadd : env.addNoteResult = Except.ok noteId) :
    tool env input =
      (ToolResult.created noteId cfg.deckName cfg.noteType
        [("Front", markdownToAnkiHtml input.Front), ("Back", markdownToAnkiHtml input.Back)]
        (jsTags input.tags),
       [PeerCall.version,
        PeerCall.findNotes ("deck:\"" ++ cfg.deckName ++ "\" " ++ input.Front),
        PeerCall.addNote cfg.deckName cfg.noteType
          [("Front", markdownToAnkiHtml input.Front), ("Back", markdownToAnkiHtml input.Back)]
          (jsTags input.tags) false]) := by
  have hne := lookupConfiguration_ne_nil hcfg
  simp [tool, hq, hq0, hf, hb, hv, hne, hcfg, duplicateCheckThenCommit, hdup, commitNote, hadd]

/-- Witness for C1: the spec's scenario instantiated concretely. -/
theorem addCard_creates_with_normalized_fields_witness :
    (¬ (1 : ℚ) ≤ 0) ∧
    tool envNoDup inputHablar =
      (ToolResult.created 101 cfgVocab.deckName cfgVocab.noteType
        [("Front", markdownToAnkiHtml inputHablar.Front),
         ("Back", markdownToAnkiHtml inputHablar.Back)]
        (jsTags inputHablar.tags),
       [PeerCall.version,
        PeerCall.findNotes ("deck:\"" ++ cfgVocab.deckName ++ "\" " ++ inputHablar.Front),
        PeerCall.addNote cfgVocab.deckName cfgVocab.noteType
          [("Front", markdownToAnkiHtml inputHablar.Front),
           ("Back", markdownToAnkiHtml inputHablar.Back)]
          (jsTags inputHablar.tags) false]) :=
  ⟨by decide,
   addCard_creates_with_normalized_fields envNoDup inputHablar 1 cfgVocab 101
     rfl (by decide) (by decide) (by decide) rfl (by decide) rfl rfl⟩

/-- A duplicate candidate as `notesInfo` reports it for the scenario. -/
def noteInfo101 : NoteInfo :=
  ⟨101, "Basic", [], [("Front", ⟨"hablar", 0⟩), ("Back", ⟨"to speak", 1⟩)]⟩

/-- Environment in which the duplicate search finds note 101. -/
def envDup : AnkiEnv :=
  ⟨true, [cfgVocab], Except.ok [101], Except.ok [noteInfo101], Except.ok 999⟩

/-- A submission whose deck id is a positive non-integral number. -/
def inputFrac : Input :=
  ⟨some (mkRat 3 2), "hola", "adios", none⟩

/-- A submission naming a deck id absent from the stored set. -/
def input5 : Input :=
  ⟨some 5, "hola", "adios", none⟩

/-- Counterexample to claim C3 as stated: the deck id 3/2 is a number
that is positive but not an integer, so the claim demands a validation
rejection before any network call; the tool instead issues the
connection probe (a network call) and then rejects the submission as an
unconfigured deck. -/
theorem addCard_fractional_deckId_passes_validation :
    ((mkRat 3 2).isInt = false ∧ 0 < mkRat 3 2) ∧
    tool envNoDup inputFrac = (ToolResult.unknownDeck (mkRat 3 2), [PeerCall.version]) := by
  refine ⟨⟨by decide, by decide⟩, by decide⟩

/-- Claim C3 as amended: the runtime validation rejects a deck id that is
not a number or is not greater than zero, and front/back content that is
empty after trimming, each before any peer call; a non-integral deck id
greater than zero passes this validation. -/
theorem addCard_validation_rejects_before_io (env : AnkiEnv) (input : Input) :
    ((input.deckId = none ∨ ∃ q, input.deckId = some q ∧ q ≤ 0) →
      tool env input = (ToolResult.invalidDeckId, [])) ∧
    (∀ q, input.deckId = some q → ¬ q ≤ 0 → jsTrim input.Front = "" →
      tool env input = (ToolResult.missingFront, [])) ∧
    (∀ q, input.deckId = some q → ¬ q ≤ 0 → ¬ jsTrim input.Front = "" →
      jsTrim input.Back = "" → tool env input = (ToolResult.missingBack, [])) := by
  refine ⟨?_, ?_, ?_⟩
  · rintro (h | ⟨q, hq, hle⟩)
    · simp [tool, h]
    · simp [tool, hq, hle]
  · intro q hq hle hf
    simp [tool, hq, hle, hf]
  · intro q hq hle hf hb
    simp [tool, hq, hle, hf, hb]

/-- Witness for the amended C3, at a non-positive deck id, a blank front
and a blank back. -/
theorem addCard_validation_rejects_before_io_witness :
    tool envNoDup ⟨some 0, "hola", "adios", none⟩ = (ToolResult.invalidDeckId, []) ∧
    tool envNoDup ⟨some 1, "   ", "adios", none⟩ = (ToolResult.missingFront, []) ∧
    tool envNoDup ⟨some 1, "hola", "", none⟩ = (ToolResult.missingBack, []) :=
  ⟨(addCard_validation_rejects_before_io envNoDup ⟨some 0, "hola", "adios", none⟩).1
      (Or.inr ⟨0, rfl, le_refl 0⟩),
   (addCard_validation_rejects_before_io envNoDup ⟨some 1, "   ", "adios", none⟩).2.1
      1 rfl (by decide) (by decide),
   (addCard_validation_rejects_before_io envNoDup ⟨some 1, "hola", "", none⟩).2.2
      1 rfl (by decide) (by decide) (by decide)⟩

/-- Claim C4: a deck id absent from the stored configuration set never
leads to a peer write, and — when validation passes and the peer is
reachable — the tool terminates with the not-configured rejection (empty
set) or the unknown-deck rejection (non-empty set), having issued only
the connection probe. -/
theorem addCard_unknownDeck_no_write (env : AnkiEnv) (input : Input) (q : ℚ)
    (hq : input.deckId = some q)
    (hcfg : lookupConfiguration env.configurations q = none) :
    (∀ call ∈ (tool env input).2, isWriteCall call = false) ∧
    (¬ q ≤ 0 → ¬ jsTrim input.Front = "" → ¬ jsTrim input.Back = "" →
      env.versionOk = true →
      tool env input =
        (if env.configurations.isEmpty then ToolResult.notConfigured
         else ToolResult.unknownDeck q, [PeerCall.version])) := by
  have htr : (tool env input).2 = [] ∨ (tool env input).2 = [PeerCall.version] := by
    simp only [tool, hq]
    by_cases h1 : q ≤ 0
    · simp [h1]
    · by_cases h2 : jsTrim input.Front = ""
      · simp [h1, h2]
      · by_cases h3 : jsTrim input.Back = ""
        · simp [h1, h2, h3]
        · by_cases h4 : env.versionOk = false
          · simp [h1, h2, h3, h4]
          · by_cases h5 : env.configurations.isEmpty
            · simp [h1, h2, h3, h4, h5]
            · simp [h1, h2, h3, h4, h5, hcfg]
  constructor
  · intro call hc
    rcases htr with h | h
    · rw [h] at hc
      simp at hc
    · rw [h] at hc
      simp at hc
      rw [hc]
      rfl
  · intro h1 h2 h3 h4
    by_cases h5 : env.configurations.isEmpty
    · simp [tool, hq, h1, h2, h3, h4, h5]
    · simp [tool, hq, h1, h2, h3, h4, h5, hcfg]

/-- Witness for C4: deck id 5 against the set containing only deck 1. -/
theorem addCard_unknownDeck_no_write_witness :
    lookupConfiguration envNoDup.configurations 5 = none ∧
    isWriteCall PeerCall.version = false ∧
    tool envNoDup input5 =
      (if envNoDup.configurations.isEmpty then ToolResult.notConfigured
       else ToolResult.unknownDeck 5, [PeerCall.version]) :=
  ⟨by decide,
   (addCard_unknownDeck_no_write envNoDup input5 5 rfl (by decide)).1
     PeerCall.version (by decide),
   (addCard_unknownDeck_no_write envNoDup input5 5 rfl (by decide)).2
     (by decide) (by decide) (by decide) rfl⟩

lemma commitNote_snd (env : AnkiEnv) (cfg : DeckConfiguration)
    (fields : List (String × String)) (tags : List String) (calls : List PeerCall) :
    (commitNote env cfg fields tags calls).2 =
      calls ++ [PeerCall.addNote cfg.deckName cfg.noteType fields tags false] := by
  unfold commitNote
  rcases hA : env.addNoteResult with e | nid <;> simp

lemma findNotes_mem_duplicateCheck (env : AnkiEnv) (cfg : DeckConfiguration)
    (input : Input) (calls : List PeerCall) :
    PeerCall.findNotes ("deck:\"" ++ cfg.deckName ++ "\" " ++ input.Front) ∈
      (duplicateCheckThenCommit env cfg input calls).2 := by
  unfold duplicateCheckThenCommit
  rcases hF : env.findNotesResult with e | ids
  · simp [commitNote_snd]
  · by_cases h : ids.isEmpty
    · simp [h, commitNote_snd]
    · rcases hI : env.notesInfoResult with e | infos
      · simp [h, commitNote_snd]
      · simp [h]

/-- Claim C9: every submission that reaches the duplicate-check stage
issues a search whose query is the deck-scoping clause for the resolved
destination followed by the raw, pre-normalization front content. -/
theorem addCard_search_query_raw_front (env : AnkiEnv) (input : Input)
    (q : ℚ) (cfg : DeckConfiguration)
    (hq : input.deckId = some q) (hq0 : ¬ q ≤ 0)
    (hf : ¬ jsTrim input.Front = "") (hb : ¬ jsTrim input.Back = "")
    (hv : env.versionOk = true)
    (hcfg : lookupConfiguration env.configurations q = some cfg) :
    PeerCall.findNotes ("deck:\"" ++ cfg.deckName ++ "\" " ++ input.Front) ∈
      (tool env input).2 := by
  have hne := lookupConfiguration_ne_nil hcfg
  simp only [tool, hq, if_neg hq0, if_neg hf, if_neg hb, hv, hne, hcfg]
  simpa using findNotes_mem_duplicateCheck env cfg input [PeerCall.version]

/-- Witness for C9: the scenario submission's search query scopes to
Spanish::Vocab and carries the raw front content. -/
theorem addCard_search_query_raw_front_witness :
    (¬ (1 : ℚ) ≤ 0) ∧
    PeerCall.findNotes ("deck:\"" ++ cfgVocab.deckName ++ "\" " ++ inputHablar.Front) ∈
      (tool envDup inputHablar).2 :=
  ⟨by decide,
   addCard_search_query_raw_front envDup inputHablar 1 cfgVocab
     rfl (by decide) (by decide) (by decide) rfl (by decide)⟩

/-- Claim C10: when the duplicate search returns a non-empty id list and
the detail lookup succeeds, the tool terminates with the duplicate
warning carrying the candidates' count and full details (ids and field
values), and the trace contains no create and no update call. -/
theorem addCard_duplicates_warn_without_mutation (env : AnkiEnv) (input : Input)
    (q : ℚ) (cfg : DeckConfiguration) (ids : List Int) (infos : List NoteInfo)
    (hq : input.deckId = some q) (hq0 : ¬ q ≤ 0)
    (hf : ¬ jsTrim input.Front = "") (hb : ¬ jsTrim input.Back = "")
    (hv : env.versionOk = true)
    (hcfg : lookupConfiguration env.configurations q = some cfg)
    (hdup : env.findNotesResult = Except.ok ids) (hne : ids ≠ [])
    (hinfo : env.notesInfoResult = Except.ok infos) :
    tool env input =
      (ToolResult.duplicateWarning ids.length infos,
       [PeerCall.version,
        PeerCall.findNotes ("deck:\"" ++ cfg.deckName ++ "\" " ++ input.Front),
        PeerCall.notesInfo ids]) := by
  have hne' := lookupConfiguration_ne_nil hcfg
  have hids : ids.isEmpty = false := by
    cases ids with
    | nil => exact absurd rfl hne
    | cons a as => rfl
  simp [tool, hq, hq0, hf, hb, hv, hne', hcfg,
    duplicateCheckThenCommit, hdup, hids, hinfo]

/-- Witness for C10: the scenario in which note 101 already exists. -/
theorem addCard_duplicates_warn_without_mutation_witness :
    (¬ (1 : ℚ) ≤ 0) ∧ ([101] : List Int) ≠ [] ∧
    tool envDup inputHablar =
      (ToolResult.duplicateWarning ([101] : List Int).length [noteInfo101],
       [PeerCall.version,
        PeerCall.findNotes ("deck:\"" ++ cfgVocab.deckName ++ "\" " ++ inputHablar.Front),
        PeerCall.notesInfo [101]]) :=
  ⟨by decide, by decide,
   addCard_duplicates_warn_without_mutation envDup inputHablar 1 cfgVocab [101] [noteInfo101]
     rfl (by decide) (by decide) (by decide) rfl (by decide) rfl (by decide) rfl⟩

/-- Claim C2, evaluated at the failing input: with a configured deck,
front "hablar" and a duplicate search returning note 101, the tool
terminates with the duplicate warning after only read calls — it never
issues the update call (or any create call) the claim requires, and no
approval variant exists through which an update could be requested. -/
theorem addCard_update_variant_missing :
    tool envDup inputHablar =
      (ToolResult.duplicateWarning 1 [noteInfo101],
       [PeerCall.version, PeerCall.findNotes "deck:\"Spanish::Vocab\" hablar",
        PeerCall.notesInfo [101]]) := by
  decide

lemma commitNote_fst_eq (env env' : AnkiEnv) (cfg : DeckConfiguration)
    (fields : List (String × String)) (tags : List String)
    (calls calls' : List PeerCall)
    (hadd : env'.addNoteResult = env.addNoteResult) :
    (commitNote env cfg fields tags calls).1 =
      (commitNote env' cfg fields tags calls').1 := by
  unfold commitNote
  rw [hadd]
  rcases hA : env.addNoteResult with e | nid <;> simp

lemma duplicateCheck_error_degrades (env env' : AnkiEnv) (cfg : DeckConfiguration)
    (input : Input) (calls : List PeerCall)
    (hadd : env'.addNoteResult = env.addNoteResult)
    (hF' : env'.findNotesResult = Except.ok [])
    (h : (∃ e, env.findNotesResult = Except.error e) ∨
         (∃ e, env.notesInfoResult = Except.error e)) :
    (duplicateCheckThenCommit env cfg input calls).1 =
      (duplicateCheckThenCommit env' cfg input calls).1 ∧
    (duplicateCheckThenCommit env cfg input calls).2.filter isWriteCall =
      (duplicateCheckThenCommit env' cfg input calls).2.filter isWriteCall := by
  unfold duplicateCheckThenCommit
  rw [hF']
  rcases hF : env.findNotesResult with e | ids
  · exact ⟨commitNote_fst_eq env env' cfg _ _ _ _ hadd, by
      simp [commitNote_snd]⟩
  · by_cases hids : ids.isEmpty
    · simp only [hids, if_true, List.isEmpty_nil]
      exact ⟨commitNote_fst_eq env env' cfg _ _ _ _ hadd, by simp [commitNote_snd]⟩
    · have hI : ∃ e, env.notesInfoResult = Except.error e := by
        rcases h with ⟨e, he⟩ | hI
        · rw [hF] at he
          exact absurd he (by simp)
        · exact hI
      rcases hI with ⟨e, he⟩
      simp only [hids, he, List.isEmpty_nil, if_true, if_false]
      exact ⟨commitNote_fst_eq env env' cfg _ _ _ _ hadd, by
        simp [commitNote_snd, List.filter_append, isWriteCall]⟩

/-- Claim C5: if the duplicate search or the detail fetch fails, the
workflow does not terminate early — its outcome and its write calls are
those of the run in which the search returned zero candidates. -/
theorem addCard_duplicateCheck_failure_degrades (env : AnkiEnv) (input : Input)
    (h : (∃ e, env.findNotesResult = Except.error e) ∨
         (∃ e, env.notesInfoResult = Except.error e)) :
    (tool env input).1 =
      (tool {env with findNotesResult := Except.ok [],
                      notesInfoResult := Except.ok []} input).1 ∧
    (tool env input).2.filter isWriteCall =
      (tool {env with findNotesResult := Except.ok [],
                      notesInfoResult := Except.ok []} input).2.filter isWriteCall := by
  rcases hd : input.deckId with _ | q
  · simp [tool, hd]
  · by_cases h1 : q ≤ 0
    · simp [tool, hd, h1]
    · by_cases h2 : jsTrim input.Front = ""
      · simp [tool, hd, h1, h2]
      · by_cases h3 : jsTrim input.Back = ""
        · simp [tool, hd, h1, h2, h3]
        · by_cases h4 : env.versionOk = false
          · simp [tool, hd, h1, h2, h3, h4]
          · by_cases h5 : env.configurations.isEmpty
            · simp [tool, hd, h1, h2, h3, h4, h5]
            · rcases hcfg : lookupConfiguration env.configurations q with _ | cfg
              · simp [tool, hd, h1, h2, h3, h4, h5, hcfg]
              · simp only [tool, hd, h1, h2, h3, h4, h5, hcfg, if_false]
                exact duplicateCheck_error_degrades env
                  {env with findNotesResult := Except.ok [], notesInfoResult := Except.ok []}
                  cfg input [PeerCall.version] rfl rfl h

/-- Environment in which the duplicate search itself fails. -/
def envSearchFail : AnkiEnv :=
  ⟨true, [cfgVocab], Except.error "network failure", Except.ok [], Except.ok 101⟩

/-- Witness for C5: with the search failing, the outcome and write calls
match the zero-candidate run. -/
theorem addCard_duplicateCheck_failure_degrades_witness :
    envSearchFail.findNotesResult = Except.error "network failure" ∧
    (tool envSearchFail inputHablar).1 =
      (tool {envSearchFail with findNotesResult := Except.ok [],
                                notesInfoResult := Except.ok []} inputHablar).1 ∧
    (tool envSearchFail inputHablar).2.filter isWriteCall =
      (tool {envSearchFail with findNotesResult := Except.ok [],
                                notesInfoResult := Except.ok []} inputHablar).2.filter isWriteCall :=
  ⟨rfl,
   (addCard_duplicateCheck_failure_degrades envSearchFail inputHablar
     (Or.inl ⟨"network failure", rfl⟩)).1,
   (addCard_duplicateCheck_failure_degrades envSearchFail inputHablar
     (Or.inl ⟨"network failure", rfl⟩)).2⟩

/-- Counterexample to claim C7 as stated: a response whose error field is
non-null but empty is not treated as a failure — `if (data.error)` tests
truthiness, and the empty string is falsy, so the result value is
returned. -/
theorem invokeAnkiConnect_empty_error_returns :
    (some "" : Option String) ≠ none ∧
    invokeAnkiConnect true "OK" (AnkiConnectResponse.mk (some 7) (some "")) =
      Except.ok (7 : Nat) := by
  exact ⟨by decide, rfl⟩

/-- Claim C7 as amended: the invoke operation fails with the peer's
message whenever the error field is truthy (non-null and non-empty),
fails with the null-result message whenever the error field is falsy and
the result field is null, and returns the result value exactly when the
error field is falsy and the result is non-null. -/
theorem invokeAnkiConnect_response_handling {T : Type}
    (resp : AnkiConnectResponse T) (st : String) :
    (truthyStr resp.error = true →
      invokeAnkiConnect true st resp = Except.error (resp.error.getD "")) ∧
    (truthyStr resp.error = false → resp.result = none →
      invokeAnkiConnect true st resp = Except.error "AnkiConnect returned null result") ∧
    (∀ v, truthyStr resp.error = false → resp.result = some v →
      invokeAnkiConnect true st resp = Except.ok v) := by
  refine ⟨?_, ?_, ?_⟩
  · intro h
    simp [invokeAnkiConnect, h]
  · intro h hr
    simp [invokeAnkiConnect, h, hr]
  · intro v h hr
    simp [invokeAnkiConnect, h, hr]

/-- Witness for the amended C7, at a truthy error, a null result and a
present result. -/
theorem invokeAnkiConnect_response_handling_witness :
    invokeAnkiConnect true "OK" (AnkiConnectResponse.mk (none : Option Nat) (some "boom")) =
      Except.error ((some "boom").getD "") ∧
    invokeAnkiConnect true "OK" (AnkiConnectResponse.mk (none : Option Nat) none) =
      Except.error "AnkiConnect returned null result" ∧
    invokeAnkiConnect true "OK" (AnkiConnectResponse.mk (some 3) none) =
      Except.ok (3 : Nat) :=
  ⟨(invokeAnkiConnect_response_handling (AnkiConnectResponse.mk none (some "boom")) "OK").1
     (by decide),
   (invokeAnkiConnect_response_handling (AnkiConnectResponse.mk none none) "OK").2.1
     rfl rfl,
   (invokeAnkiConnect_response_handling (AnkiConnectResponse.mk (some 3) none) "OK").2.2
     3 rfl rfl⟩

/-- A second configuration for deck id 1, to exercise the upsert. -/
def cfgVocab2 : DeckConfiguration :=
  ⟨1, "Spanish::Vocab", "updated purpose", "Basic (and reversed card)", "", "", "", ""⟩

/-- Claim C8: the at-most-one-configuration-per-deck-id invariant is
preserved by the upsert (which removes any configuration with the same
deck id before appending) and by removal, and removal only removes
entries (its result is a sublist of the input). -/
theorem storage_at_most_one_per_deckId (l : List DeckConfiguration)
    (c : DeckConfiguration) (q : ℚ) (h : atMostOnePerDeckId l) :
    atMostOnePerDeckId (addDeckConfiguration l c) ∧
    atMostOnePerDeckId (removeDeckConfiguration l q) ∧
    (removeDeckConfiguration l q).Sublist l := by
  refine ⟨?_, ?_, List.filter_sublist l⟩
  · have hsub : ((l.filter fun a => a.deckId != c.deckId).map (·.deckId)).Sublist
        (l.map (·.deckId)) := (List.filter_sublist l).map _
    have hnd : ((l.filter fun a => a.deckId != c.deckId).map (·.deckId)).Nodup :=
      h.sublist hsub
    have hnm : c.deckId ∉ (l.filter fun a => a.deckId != c.deckId).map (·.deckId) := by
      simp only [List.mem_map, List.mem_filter, bne_iff_ne]
      rintro ⟨a, ⟨_, hne⟩, hEq⟩
      exact hne hEq
    simp [addDeckConfiguration, atMostOnePerDeckId, List.nodup_append, hnd, hnm,
      List.disjoint_singleton]
  · have hsub : ((l.filter fun a => a.deckId != q).map (·.deckId)).Sublist
        (l.map (·.deckId)) := (List.filter_sublist l).map _
    exact h.sublist hsub

/-- Witness for C8: upserting a replacement for deck 1 and removing
deck 1 from the singleton store. -/
theorem storage_at_most_one_per_deckId_witness :
    atMostOnePerDeckId [cfgVocab] ∧
    atMostOnePerDeckId (addDeckConfiguration [cfgVocab] cfgVocab2) ∧
    atMostOnePerDeckId (removeDeckConfiguration [cfgVocab] 1) ∧
    (removeDeckConfiguration [cfgVocab] 1).Sublist [cfgVocab] :=
  ⟨by unfold atMostOnePerDeckId; decide,
   (storage_at_most_one_per_deckId [cfgVocab] cfgVocab2 1
     (by unfold atMostOnePerDeckId; decide)).1,
   (storage_at_most_one_per_deckId [cfgVocab] cfgVocab2 1
     (by unfold atMostOnePerDeckId; decide)).2.1,
   (storage_at_most_one_per_deckId [cfgVocab] cfgVocab2 1
     (by unfold atMostOnePerDeckId; decide)).2.2⟩

/-- A lightly-marked-up (markdown) syntax marker: emphasis, inline code,
line break or heading marker. -/
def lightMarkupChar (c : Char) : Prop :=
  c = '*' ∨ c = '_' ∨ c = codeTick ∨ c = '\n' ∨ c = '#'

/-- The claim's hypothesis: the string contains no further
lightly-marked-up syntax. -/
def noLightMarkup (s : String) : Prop :=
  ∀ c ∈ s.data, ¬ lightMarkupChar c

/-- Plain text character: no markdown marker and no character the
renderer escapes. -/
def plainChar (c : Char) : Prop :=
  c ≠ '&' ∧ c ≠ '<' ∧ c ≠ '>' ∧ c ≠ '"' ∧ c ≠ '\n' ∧
  c ≠ '*' ∧ c ≠ '_' ∧ c ≠ codeTick ∧ c ≠ '#'

lemma escChar_eq_of_plain {c : Char} (h1 : c ≠ '&') (h2 : c ≠ '<')
    (h3 : c ≠ '>') (h4 : c ≠ '"') (h5 : c ≠ '\n') : escChar c = [c] := by
  unfold escChar
  rw [if_neg h1, if_neg h2, if_neg h3, if_neg h4, if_neg h5]

lemma escList_eq_of_plain {l : List Char} (h : ∀ c ∈ l, plainChar c) :
    escList l = l := by
  induction l with
  | nil => rfl
  | cons c cs ih =>
    obtain ⟨h1, h2, h3, h4, h5, _⟩ := h c (List.mem_cons_self c cs)
    rw [escList, escChar_eq_of_plain h1 h2 h3 h4 h5,
      ih fun a ha => h a (List.mem_cons_of_mem _ ha)]
    rfl

lemma splitSS_eq_of_no_star {l : List Char} (h : ∀ c ∈ l, c ≠ '*') :
    splitSS l = [l] := by
  induction l with
  | nil => rfl
  | cons c cs ih =>
    cases cs with
    | nil => rfl
    | cons c2 cs2 =>
      have hcc : ¬ (c = '*' ∧ c2 = '*') := fun hp => h c (by simp) hp.1
      have ih2 := ih fun a ha => h a (List.mem_cons_of_mem _ ha)
      simp only [splitSS, if_neg hcc, ih2]

lemma stripP_wrap (mid : List Char) : stripP (pOpen ++ mid ++ pClose) = mid := by
  unfold stripP
  have h1 : pOpen ++ mid ++ pClose = '<' :: 'p' :: '>' :: (mid ++ pClose) := by
    simp [pOpen]
  rw [h1]
  have h2 : dropPOpen ('<' :: 'p' :: '>' :: (mid ++ pClose)) = mid ++ pClose := rfl
  rw [h2]
  have h3 : (mid ++ pClose).reverse = '\n' :: '>' :: 'p' :: '/' :: '<' :: mid.reverse := by
    simp [pClose]
  rw [h3]
  have h4 : dropPCloseRev ('\n' :: '>' :: 'p' :: '/' :: '<' :: mid.reverse) = mid.reverse := rfl
  rw [h4, List.reverse_reverse]

lemma dropWhile_self (p : Char → Bool) (l : List Char) :
    (l.dropWhile p).dropWhile p = l.dropWhile p := by
  induction l with
  | nil => rfl
  | cons c cs ih =>
    by_cases hc : p c
    · rw [List.dropWhile_cons_of_pos hc, ih]
    · rw [List.dropWhile_cons_of_neg hc, List.dropWhile_cons_of_neg hc]

lemma trimLeftChars_self (l : List Char) :
    trimLeftChars (trimLeftChars l) = trimLeftChars l :=
  dropWhile_self wsChar l

lemma trimRightChars_self (l : List Char) :
    trimRightChars (trimRightChars l) = trimRightChars l := by
  unfold trimRightChars
  rw [List.reverse_reverse, dropWhile_self]

lemma trimLeftChars_trimRightChars (m : List Char)
    (hm : trimLeftChars m = m) :
    trimLeftChars (trimRightChars m) = trimRightChars m := by
  cases m with
  | nil => rfl
  | cons c m' =>
    have hc : wsChar c = false := by
      cases h' : wsChar c
      · rfl
      · exfalso
        have h1 : trimLeftChars (c :: m') = m'.dropWhile wsChar :=
          List.dropWhile_cons_of_pos h'
        have h2 : (m'.dropWhile wsChar).length ≤ m'.length :=
          (List.dropWhile_sublist wsChar).length_le
        rw [hm] at h1
        have h3 : (c :: m').length = (m'.dropWhile wsChar).length := by rw [h1]
        simp only [List.length_cons] at h3
        omega
    have hcb : ¬ wsChar c = true := by simp [hc]
    have hws : ∀ X : List Char, trimLeftChars (c :: X) = c :: X :=
      fun X => List.dropWhile_cons_of_neg hcb
    unfold trimRightChars
    rw [List.reverse_cons, List.dropWhile_append]
    by_cases he : (m'.reverse.dropWhile wsChar).isEmpty
    · rw [if_pos he]
      have h1 : List.dropWhile wsChar [c] = [c] := List.dropWhile_cons_of_neg hcb
      rw [h1]
      exact hws []
    · rw [if_neg he, List.reverse_append]
      have h2 : ([c] : List Char).reverse = [c] := rfl
      rw [h2, List.singleton_append]
      exact hws _

lemma trimChars_idem (l : List Char) : trimChars (trimChars l) = trimChars l := by
  unfold trimChars
  rw [trimLeftChars_trimRightChars (trimLeftChars l) (trimLeftChars_self l),
    trimRightChars_self]

/-- Counterexample to claim C6 as stated: the normalized form of
"**hi**" is the strong-tagged markup, which contains no further
lightly-marked-up syntax, yet normalizing it again escapes the very
structural markup the first pass produced (raw markup in the input is
disabled), so the normalizer is not idempotent on it. -/
theorem markdownToAnkiHtml_not_idempotent :
    noLightMarkup (markdownToAnkiHtml "**hi**") ∧
    markdownToAnkiHtml (markdownToAnkiHtml "**hi**") ≠ markdownToAnkiHtml "**hi**" := by
  constructor
  · unfold noLightMarkup lightMarkupChar codeTick
    decide
  · decide

/-- The amended hypothesis: every character of the string is plain. -/
def allPlain (s : String) : Prop :=
  ∀ c ∈ s.data, plainChar c

/-- Claim C6 as amended: the normalizer is idempotent on every input
whose normalized form is plain text — free of lightly-marked-up syntax
and of the HTML-structural characters the renderer escapes. -/
theorem markdownToAnkiHtml_idempotent_on_plain (x : String)
    (h : allPlain (markdownToAnkiHtml x)) :
    markdownToAnkiHtml (markdownToAnkiHtml x) = markdownToAnkiHtml x := by
  have hsplit : splitSS (markdownToAnkiHtml x).data = [(markdownToAnkiHtml x).data] :=
    splitSS_eq_of_no_star fun c hc => (h c hc).2.2.2.2.2.1
  have hesc : escList (markdownToAnkiHtml x).data = (markdownToAnkiHtml x).data :=
    escList_eq_of_plain h
  have hrender : renderChars (markdownToAnkiHtml x).data =
      pOpen ++ (markdownToAnkiHtml x).data ++ pClose := by
    rw [renderChars, hsplit]
    show pOpen ++ escList (markdownToAnkiHtml x).data ++ pClose = _
    rw [hesc]
  have hstrip : stripP (renderChars (markdownToAnkiHtml x).data) =
      (markdownToAnkiHtml x).data := by
    rw [hrender, stripP_wrap]
  have htrim : trimChars (markdownToAnkiHtml x).data = (markdownToAnkiHtml x).data := by
    have hdata : (markdownToAnkiHtml x).data = trimChars (stripP (renderChars x.data)) := rfl
    rw [hdata, trimChars_idem]
  show (⟨trimChars (stripP (renderChars (markdownToAnkiHtml x).data))⟩ : String) =
    markdownToAnkiHtml x
  rw [hstrip, htrim]

/-- Witness for the amended C6: plain text with an interior space. -/
theorem markdownToAnkiHtml_idempotent_on_plain_witness :
    allPlain (markdownToAnkiHtml "hola mundo") ∧
    markdownToAnkiHtml (markdownToAnkiHtml "hola mundo") = markdownToAnkiHtml "hola mundo" :=
  ⟨by unfold allPlain plainChar codeTick; decide,
   markdownToAnkiHtml_idempotent_on_plain "hola mundo"
     (by unfold allPlain plainChar codeTick; decide)⟩
